import Mathlib

/-!
Verification of the chrome-devtools-mcp extension tooling slice.

This file shallowly embeds the two source files under src/:

* src/tools/extension.ts — the handlers of the get_extension_logs and
  test_extension_access tools.  Effectful driver operations (newPage, goto,
  evaluate, chrome.storage.local.get) are modelled by an environment record
  that fixes the outcome of each operation; a thrown JavaScript exception is
  modelled as the Except.error of its message string.  The session context
  (page list plus selected index) is modelled by explicit state passing, and
  the session operations performed by a handler are additionally recorded in
  an ordered trace so that ordering claims (close before restore) can be
  stated.

* src/utils/extension.ts — extractExtensionId, getExtensionContextType and
  isSameExtension.  The WHATWG URL constructor used by this code is an
  external browser builtin; it is modelled as a parameter (URLModel) mapping
  a string either to its parsed hostname and pathname or to none when the
  constructor throws a TypeError.  Likewise the JavaScript Date builtin used
  by the log filters is modelled as a parameter (JsDate).
-/

/-! ## Log data model (interface ExtensionLog, tools/extension.ts lines 12-18)

The msg field is unknown[] in the source; the handler only ever joins it
with spaces, so it is modelled as the list of the rendered parts. -/

structure LogEntry where
  ctx : String
  level : String
  msg : List String
  sid : String
  t : String
deriving DecidableEq, Repr

/-- Model of the JavaScript Date builtin as used by the source:
getTime s is the value of (new Date(s)).getTime() in milliseconds, and
toISO s is (new Date(s)).toISOString(). -/
structure JsDate where
  getTime : String → Int
  toISO : String → String

/-- Validated parameters of get_extension_logs after zod parsing
(schema at tools/extension.ts lines 45-76; defaults applied). -/
structure GetLogsParams where
  extensionId : String
  contextType : String := "all"
  logLevel : String := "all"
  maxEntries : Nat := 100
  since : Option Int := none
  sessionId : Option String := none

/-- JavaScript truthiness of an optional number: undefined and 0 are falsy.
Models the guard `if (since)` at line 128. -/
def truthyNum : Option Int → Bool
  | none => false
  | some n => n != 0

/-- JavaScript truthiness of an optional string: undefined and the empty
string are falsy.  Models the guard `if (sessionId)` at line 134. -/
def truthyStr : Option String → Bool
  | none => false
  | some s => s != ""

/-- The context-type filter predicate of lines 141-146: an entry is kept when
its ctx equals the requested context type, with the documented alias that
contextType background also matches service_worker. -/
def ctxKeep (contextType : String) (ctx : String) : Bool :=
  ctx == contextType || (contextType == "background" && ctx == "service_worker")

/-- The context-type filter stage (lines 140-147): applied only when
contextType is not "all". -/
def filterCtx (contextType : String) (logs : List LogEntry) : List LogEntry :=
  if contextType ≠ "all" then logs.filter (fun log => ctxKeep contextType log.ctx) else logs

/-- Descending insertion by parsed timestamp; auxiliary for sortDesc. -/
def insertDesc (gt : String → Int) (a : LogEntry) : List LogEntry → List LogEntry
  | [] => [a]
  | b :: bs => if gt b.t ≤ gt a.t then a :: b :: bs else b :: insertDesc gt a bs

/-- Model of `filteredLogs.sort((a, b) => new Date(b.t).getTime() - new
Date(a.t).getTime())` (lines 156-159): sorts by parsed timestamp, most
recent first. -/
def sortDesc (gt : String → Int) : List LogEntry → List LogEntry
  | [] => []
  | a :: as => insertDesc gt a (sortDesc gt as)

/-- The since filter stage (lines 128-132), guarded by JavaScript
truthiness of the optional number. -/
def sinceFilter (gt : String → Int) (since : Option Int) (logs : List LogEntry) :
    List LogEntry :=
  if truthyNum since then logs.filter (fun log => since.getD 0 ≤ gt log.t) else logs

/-- The session-id filter stage (lines 134-138), guarded by JavaScript
truthiness of the optional string. -/
def sessionFilter (sessionId : Option String) (logs : List LogEntry) : List LogEntry :=
  if truthyStr sessionId then logs.filter (fun log => log.sid == sessionId.getD "")
  else logs

/-- The severity filter stage (lines 149-153). -/
def levelFilter (logLevel : String) (logs : List LogEntry) : List LogEntry :=
  if logLevel ≠ "all" then logs.filter (fun log => log.level == logLevel) else logs

/-- The whole filter pipeline run by the in-page script on the stored list
(tools/extension.ts lines 126-162): since filter, session filter, context
filter, level filter, descending sort by timestamp, truncation to
maxEntries. -/
def applyFilters (gt : String → Int) (p : GetLogsParams) (allLogs : List LogEntry) :
    List LogEntry :=
  (sortDesc gt
      (levelFilter p.logLevel
        (filterCtx p.contextType
          (sessionFilter p.sessionId
            (sinceFilter gt p.since allLogs))))).take p.maxEntries

/-! ## Models of the JavaScript string builtins used by the source -/

/-- Model of the JavaScript String.prototype.startsWith builtin:
code-unit by code-unit comparison of the candidate against the start of
the receiver. -/
def jsStartsWith (s pat : String) : Bool := pat.toList.isPrefixOf s.toList

/-- Substring occurrence on character lists; auxiliary for jsIncludes. -/
def containsList (pat : List Char) : List Char → Bool
  | [] => pat.isEmpty
  | c :: cs => pat.isPrefixOf (c :: cs) || containsList pat cs

/-- Model of the JavaScript String.prototype.includes builtin. -/
def jsIncludes (s pat : String) : Bool := containsList pat.toList s.toList

/-- Model of the JavaScript String.prototype.toLowerCase builtin on the
ASCII pathnames the source applies it to. -/
def jsToLower (s : String) : String := String.mk (s.toList.map Char.toLower)

/-- Model of the JavaScript String.prototype.toUpperCase builtin on the
ASCII level tags the source applies it to. -/
def jsToUpper (s : String) : String := String.mk (s.toList.map Char.toUpper)

/-! ## URL utilities (src/utils/extension.ts)

The WHATWG URL constructor is external: URLModel.parse url is some record
of hostname and pathname when `new URL(url)` succeeds, and none when the
constructor throws a TypeError (for example when the host part contains a
forbidden host code point such as a space). -/

structure URLRec where
  hostname : String
  pathname : String

structure URLModel where
  parse : String → Option URLRec

/-- extractExtensionId (utils/extension.ts lines 10-17): throws when the url
does not start with the scheme marker, otherwise returns the hostname of
the parsed URL; the URL constructor itself may throw. -/
def extractExtensionId (M : URLModel) (url : String) : Except String String :=
  if !(jsStartsWith url "chrome-extension://") then
    .error "Not a chrome-extension URL"
  else
    match M.parse url with
    | none => .error "Invalid URL"
    | some u => .ok u.hostname

/-- getExtensionContextType (utils/extension.ts lines 22-50).  The source
classifies by substring tests on the lowercased pathname; an Except.error
models the TypeError thrown by `new URL(url)` on an unparsable input. -/
def getExtensionContextType (M : URLModel) (url : String) : Except String String :=
  if !(jsStartsWith url "chrome-extension://") then .ok "web"
  else
    match M.parse url with
    | none => .error "Invalid URL"
    | some u =>
      let pathname := jsToLower u.pathname
      if jsIncludes pathname "background" || jsIncludes pathname "service_worker" then
        .ok "service_worker"
      else if jsIncludes pathname "options" then .ok "options"
      else if jsIncludes pathname "popup" then .ok "popup"
      else if jsIncludes pathname "sidebar" || jsIncludes pathname "sidepanel" then
        .ok "sidebar"
      else if jsIncludes pathname "content_script" then .ok "content_script"
      else .ok "extension_page"

/-- isSameExtension (utils/extension.ts lines 55-68): false when either url
lacks the scheme marker; otherwise compares the two extracted ids, with the
try/catch turning any extraction failure into false. -/
def isSameExtension (M : URLModel) (u1 u2 : String) : Bool :=
  if !(jsStartsWith u1 "chrome-extension://") || !(jsStartsWith u2 "chrome-extension://") then
    false
  else
    match extractExtensionId M u1, extractExtensionId M u2 with
    | .ok a, .ok b => a == b
    | _, _ => false

/-! ## Session context model (spec section 4.3; used via the handler calls
getSelectedPageIdx, newPage, closePage, setSelectedPageIdx)

Pages carry opaque numeric ids; newPage appends a fresh page and selects
it, closePage removes the page at the given index and resets the selection
to 0 as its documented contract states, setSelectedPageIdx overwrites the
selection. -/

structure SessionState where
  pages : List Nat
  selected : Nat
deriving DecidableEq, Repr

def getSelectedPageIdx (s : SessionState) : Nat := s.selected

def newPage (s : SessionState) : SessionState :=
  { pages := s.pages ++ [s.pages.length], selected := s.pages.length }

def closePage (s : SessionState) (i : Nat) : SessionState :=
  { pages := s.pages.eraseIdx i, selected := 0 }

def setSelectedPageIdx (s : SessionState) (i : Nat) : SessionState :=
  { s with selected := i }

/-- A session operation performed by a handler, recorded in order. -/
inductive SOp
  | close (i : Nat)
  | restore (i : Nat)
deriving DecidableEq, Repr

/-! ## get_extension_logs handler (tools/extension.ts lines 77-236) -/

/-- Outcomes of the effectful driver operations of one run of the
get_extension_logs handler: some msg means the operation threw with that
message, and storageGet is the result of chrome.storage.local.get on the
key __dev_logs inside the page (Except.error for an in-page throw, Option
for presence of the key). -/
structure GetLogsEnv where
  newPageResult : Option String
  gotoPrimary : Option String
  gotoFallback : Option String
  evalCrash : Option String
  storageGet : Except String (Option (List LogEntry))

/-- Value computed by the in-page script (lines 115-167): the inner
try/catch turns a storage failure into the data value with an error field,
never a throw; otherwise a missing key is read as the empty list and the
filter pipeline is applied. -/
inductive EvalResult
  | errorVal (msg : String)
  | logsVal (logs : List LogEntry)
deriving DecidableEq, Repr

def inPageScript (gt : String → Int) (storageGet : Except String (Option (List LogEntry)))
    (p : GetLogsParams) : EvalResult :=
  match storageGet with
  | .error e => .errorVal ("Failed to access extension storage: " ++ e)
  | .ok v => .logsVal (applyFilters gt p (v.getD []))

/-- The six no-result lines of tools/extension.ts lines 177-191. -/
def noLogsLines : List String :=
  [ "No logs found matching the specified criteria.",
    "",
    "This could mean:",
    "- The extension does not implement a dev log sink",
    "- No logs have been generated yet",
    "- The filter criteria are too restrictive" ]

/-- Session ids in first-occurrence order, as produced by inserting into a
JavaScript Map while iterating the log list (lines 199-205). -/
def sessionIds (logs : List LogEntry) : List String :=
  logs.foldl (fun acc log => if acc.contains log.sid then acc else acc ++ [log.sid]) []

def repeatStr (s : String) (n : Nat) : String := String.join (List.replicate n s)

/-- JavaScript String.padEnd with spaces. -/
def padEnd (s : String) (n : Nat) : String := s ++ repeatStr " " (n - s.length)

/-- One formatted log line (lines 211-221). -/
def formatLogLine (jd : JsDate) (log : LogEntry) : String :=
  jd.toISO log.t ++ " [" ++ padEnd (jsToUpper log.level) 5 ++ "] " ++ padEnd log.ctx 10 ++
    " " ++ String.intercalate " " log.msg

/-- The block of lines printed for one session group (lines 207-224). -/
def sessionBlock (jd : JsDate) (sid : String) (logs : List LogEntry) : List String :=
  ("Session: " ++ sid) :: repeatStr "‚îÄ" 50 :: (logs.map (formatLogLine jd) ++ [""])

/-- The response lines of the non-empty result path (lines 193-224). -/
def foundLines (jd : JsDate) (extensionId : String) (logs : List LogEntry) : List String :=
  ("Found " ++ toString logs.length ++ " log entries for extension " ++ extensionId) :: "" ::
    (sessionIds logs).flatMap
      (fun sid => sessionBlock jd sid (logs.filter (fun log => log.sid == sid)))

/-- The evaluation stage of the handler (lines 108-224): a rejection of
page.evaluate itself propagates as an exception, a returned error value
yields the single Error line, an empty list yields the no-result lines,
otherwise the grouped report. -/
def evalPhase (jd : JsDate) (env : GetLogsEnv) (p : GetLogsParams) :
    Except String (List String) :=
  match env.evalCrash with
  | some m => .error m
  | none =>
    match inPageScript jd.getTime env.storageGet p with
    | .errorVal m => .ok ["Error: " ++ m]
    | .logsVal logs =>
      if logs.length = 0 then .ok noLogsLines
      else .ok (foundLines jd p.extensionId logs)

/-- The inner try block of the handler (lines 89-224): navigation to
options.html, with the catch at lines 98-105 retrying the extension root;
only a failure of the fallback escapes. -/
def getLogsBody (jd : JsDate) (env : GetLogsEnv) (p : GetLogsParams) :
    Except String (List String) :=
  match env.gotoPrimary with
  | none => evalPhase jd env p
  | some _ =>
    match env.gotoFallback with
    | none => evalPhase jd env p
    | some m2 => .error m2

def getLogsFailLine (m : String) : String := "Failed to retrieve extension logs: " ++ m

/-- The exception or line list produced by the whole try body of the
handler, newPage included. -/
def getLogsOutcome (jd : JsDate) (env : GetLogsEnv) (p : GetLogsParams) :
    Except String (List String) :=
  match env.newPageResult with
  | some m => .error m
  | none => getLogsBody jd env p

structure HandlerResult where
  state : SessionState
  lines : List String
  trace : List SOp
deriving Repr

/-- The get_extension_logs handler (lines 77-236): capture the selection,
open a page, run the body, and in the finally block (lines 225-230) close
the temporary page and then restore the captured selection; the outer
catch (lines 231-235) turns any escaped exception into one response
line. -/
def getExtensionLogsHandler (jd : JsDate) (env : GetLogsEnv) (p : GetLogsParams)
    (s : SessionState) : HandlerResult :=
  match env.newPageResult with
  | some m => ⟨s, [getLogsFailLine m], []⟩
  | none =>
    let origIdx := getSelectedPageIdx s
    let s1 := newPage s
    let newIdx := getSelectedPageIdx s1
    let s2 := setSelectedPageIdx (closePage s1 newIdx) origIdx
    let tr := [SOp.close newIdx, SOp.restore origIdx]
    match getLogsBody jd env p with
    | .ok ls => ⟨s2, ls, tr⟩
    | .error m => ⟨s2, [getLogsFailLine m], tr⟩

/-! ## test_extension_access handler (tools/extension.ts lines 239-380) -/

/-- Outcomes of the effectful operations of one run of the
test_extension_access handler: some msg means the navigation or evaluate
call threw, storageGet is the result of chrome.storage.local.get inside
the page. -/
structure TestAccessEnv where
  newPageResult : Option String
  gotoOptions : Option String
  gotoManifest : Option String
  gotoRoot : Option String
  gotoRootForStorage : Option String
  evalCrash : Option String
  storageGet : Except String Unit

def checkMark : String := "‚úì"

def crossMark : String := "‚úó"

/-- The storage test result line (lines 311-337): any throw of the second
root navigation or of page.evaluate is caught and reported as not
testable; otherwise the in-page try/catch converts the storage call into a
success flag plus message. -/
def storageResultLine (env : TestAccessEnv) : String :=
  if env.gotoRootForStorage.isSome || env.evalCrash.isSome then
    crossMark ++ " Could not test storage API"
  else
    match env.storageGet with
    | .ok _ => checkMark ++ " Storage API accessible"
    | .error e => crossMark ++ " Storage API issue: Storage API error: " ++ e

/-- The four test result strings pushed by lines 277-337; every navigation
failure is caught locally, so this stage never throws. -/
def testResults (env : TestAccessEnv) : List String :=
  [ if env.gotoOptions.isNone then checkMark ++ " Options page accessible"
    else crossMark ++ " Options page not accessible",
    if env.gotoManifest.isNone then checkMark ++ " Manifest accessible"
    else crossMark ++ " Manifest not accessible",
    if env.gotoRoot.isNone then checkMark ++ " Extension root accessible"
    else crossMark ++ " Extension root not accessible",
    storageResultLine env ]

/-- The displayed results plus summary (lines 345-373). -/
def resultsBlock (env : TestAccessEnv) : List String :=
  let results := testResults env
  let successCount := (results.filter (fun r => jsStartsWith r checkMark)).length
  let totalTests := results.length
  ["Extension Test Results:", repeatStr "‚îÄ" 30] ++ results ++
    ["", "Summary: " ++ toString successCount ++ "/" ++ toString totalTests ++
      " tests passed"] ++
    (if successCount = totalTests then
      ["üéâ Extension appears to be working correctly!"]
    else if successCount > 0 then
      ["‚ö†Ô∏è  Extension has some issues but is partially functional"]
    else
      ["‚ùå Extension appears to have significant issues"])

def testFailLine (m : String) : String := "Failed to test extension: " ++ m

/-- The exception or line list produced by the whole try body of the
test_extension_access handler: only newPage can throw, every other failure
is caught inside the body. -/
def testOutcome (env : TestAccessEnv) : Except String (List String) :=
  match env.newPageResult with
  | some m => .error m
  | none => .ok (resultsBlock env)

/-- The test_extension_access handler (lines 262-379): two header lines,
then capture the selection, open a page, run the tests, and in the finally
block (lines 338-343) close the temporary page and then restore the
captured selection; the outer catch (lines 374-378) turns any escaped
exception into one appended line. -/
def testExtensionAccessHandler (env : TestAccessEnv) (extensionId : String)
    (s : SessionState) : HandlerResult :=
  let header := ["Testing extension: " ++ extensionId, ""]
  match env.newPageResult with
  | some m => ⟨s, header ++ [testFailLine m], []⟩
  | none =>
    let origIdx := getSelectedPageIdx s
    let s1 := newPage s
    let newIdx := getSelectedPageIdx s1
    let s2 := setSelectedPageIdx (closePage s1 newIdx) origIdx
    ⟨s2, header ++ resultsBlock env, [SOp.close newIdx, SOp.restore origIdx]⟩

/-! ## Dispatcher serialization model -/

/-- Modelled from the spec: the Tool Registry and Dispatcher with its
process-wide execution mutex (spec sections 4.2 and 5) is code of this
repository that is not under src/.  A tool call is a name plus the ordered
list of atomic handler steps it performs. -/
structure ToolCall where
  name : String
  steps : List String

/-- Modelled from the spec: a single logical worker serves validated calls
one at a time in FIFO arrival order, each handler running to completion
while the execution mutex is held; the execution trace is therefore the
concatenation of the step lists of the calls, each step tagged with the
arrival index of its call. -/
def runFrom : Nat → List ToolCall → List (Nat × String)
  | _, [] => []
  | i, c :: cs => c.steps.map (fun st => (i, st)) ++ runFrom (i + 1) cs

def dispatchAll (calls : List ToolCall) : List (Nat × String) := runFrom 0 calls

/-! ## Helper lemmas -/

theorem eraseIdx_append_last (l : List Nat) (a : Nat) :
    (l ++ [a]).eraseIdx l.length = l := by
  induction l with
  | nil => rfl
  | cons x xs ih => simpa [List.eraseIdx] using ih

theorem mem_insertDesc (gt : String → Int) (a x : LogEntry) (l : List LogEntry) :
    x ∈ insertDesc gt a l ↔ x = a ∨ x ∈ l := by
  induction l with
  | nil => simp [insertDesc]
  | cons b bs ih =>
    by_cases h : gt b.t ≤ gt a.t
    · simp only [insertDesc, if_pos h, List.mem_cons]
    · simp only [insertDesc, if_neg h, List.mem_cons, ih]
      tauto

theorem mem_sortDesc (gt : String → Int) (x : LogEntry) (l : List LogEntry) :
    x ∈ sortDesc gt l ↔ x ∈ l := by
  induction l with
  | nil => simp [sortDesc]
  | cons a as ih => simp [sortDesc, mem_insertDesc, ih]

theorem pairwise_insertDesc (gt : String → Int) (a : LogEntry) (l : List LogEntry)
    (h : List.Pairwise (fun x y => gt y.t ≤ gt x.t) l) :
    List.Pairwise (fun x y => gt y.t ≤ gt x.t) (insertDesc gt a l) := by
  induction l with
  | nil => simp [insertDesc]
  | cons b bs ih =>
    rcases List.pairwise_cons.mp h with ⟨hb, hbs⟩
    by_cases hc : gt b.t ≤ gt a.t
    · rw [insertDesc, if_pos hc]
      refine List.pairwise_cons.mpr ⟨?_, h⟩
      intro y hy
      rcases List.mem_cons.mp hy with rfl | hy
      · exact hc
      · exact le_trans (hb y hy) hc
    · rw [insertDesc, if_neg hc]
      refine List.pairwise_cons.mpr ⟨?_, ih hbs⟩
      intro y hy
      rcases (mem_insertDesc gt a y bs).mp hy with rfl | hy
      · exact (lt_of_not_le hc).le
      · exact hb y hy

theorem pairwise_sortDesc (gt : String → Int) (l : List LogEntry) :
    List.Pairwise (fun x y => gt y.t ≤ gt x.t) (sortDesc gt l) := by
  induction l with
  | nil => simp [sortDesc]
  | cons a as ih => exact pairwise_insertDesc gt a _ ih

theorem mem_of_iteFilter {c : Prop} [Decidable c] {f : LogEntry → Bool}
    {l : List LogEntry} {x : LogEntry}
    (h : x ∈ (if c then l.filter f else l)) : x ∈ l := by
  split at h
  · exact List.mem_of_mem_filter h
  · exact h

theorem runFrom_fst_ge (cs : List ToolCall) :
    ∀ (i : Nat), ∀ q ∈ runFrom i cs, i ≤ q.1 := by
  induction cs with
  | nil => intro i q hq; simp [runFrom] at hq
  | cons c cs ih =>
    intro i q hq
    rw [runFrom] at hq
    rcases List.mem_append.mp hq with h | h
    · rcases List.mem_map.mp h with ⟨st, _, rfl⟩
      exact le_refl i
    · exact Nat.le_of_succ_le (ih (i + 1) q h)

theorem pairwise_runFrom (cs : List ToolCall) :
    ∀ i, List.Pairwise (fun a b : Nat × String => a.1 ≤ b.1) (runFrom i cs) := by
  induction cs with
  | nil => intro i; simp [runFrom]
  | cons c cs ih =>
    intro i
    rw [runFrom]
    refine List.pairwise_append.mpr ⟨?_, ih (i + 1), ?_⟩
    · refine List.pairwise_map.mpr ?_
      induction c.steps with
      | nil => exact List.Pairwise.nil
      | cons s ss ihs => exact List.pairwise_cons.mpr ⟨fun y _ => le_refl i, ihs⟩
    · intro a ha b hb
      rcases List.mem_map.mp ha with ⟨st, _, rfl⟩
      exact Nat.le_of_succ_le (runFrom_fst_ge cs (i + 1) b hb)

theorem runFrom_filter_lt (cs : List ToolCall) :
    ∀ i k, k < i → (runFrom i cs).filter (fun q => q.1 == k) = [] := by
  induction cs with
  | nil => intro i k _; rfl
  | cons c cs ih =>
    intro i k hk
    rw [runFrom, List.filter_append, ih (i + 1) k (Nat.lt_succ_of_lt hk)]
    simp only [List.append_nil]
    refine List.filter_eq_nil_iff.mpr ?_
    intro q hq
    rcases List.mem_map.mp hq with ⟨st, _, rfl⟩
    simp only [beq_iff_eq]
    omega

theorem runFrom_filter_eq (cs : List ToolCall) :
    ∀ i j, (runFrom i cs).filter (fun q => q.1 == i + j) =
      ((cs[j]?).map (fun c => c.steps.map (fun st => (i + j, st)))).getD [] := by
  induction cs with
  | nil => intro i j; simp [runFrom]
  | cons c cs ih =>
    intro i j
    rw [runFrom, List.filter_append]
    cases j with
    | zero =>
      rw [runFrom_filter_lt cs (i + 1) (i + 0) (by omega)]
      simp only [List.append_nil, Nat.add_zero, List.getElem?_cons_zero,
        Option.map_some', Option.getD_some]
      refine (List.filter_eq_self.mpr ?_)
      intro q hq
      rcases List.mem_map.mp hq with ⟨st, _, rfl⟩
      simp
    | succ j' =>
      have harith : i + (j' + 1) = (i + 1) + j' := by omega
      rw [harith, ih (i + 1) j']
      have hblock : (c.steps.map (fun st => (i, st))).filter
          (fun q => q.1 == (i + 1) + j') = [] := by
        refine List.filter_eq_nil_iff.mpr ?_
        intro q hq
        rcases List.mem_map.mp hq with ⟨st, _, rfl⟩
        simp only [beq_iff_eq]
        omega
      rw [hblock, List.nil_append, List.getElem?_cons_succ]

theorem beq_str_comm (a b : String) : (a == b) = (b == a) := by
  by_cases h : a = b
  · rw [h]
  · rw [beq_eq_false_iff_ne.mpr h, beq_eq_false_iff_ne.mpr (Ne.symm h)]

/-! ## Concrete instances used by witnesses and counterexamples -/

/-- A JsDate model fixing the external Date builtin at the timestamps used
below: in JavaScript, new Date on 1969-12-31T23:59:59.000Z gives getTime
-1000, on 2025-01-01T00:00:10.000Z it gives 1735689610000, and on
2025-01-01T00:00:20.000Z it gives 1735689620000; toISOString is the
identity on these already-canonical ISO strings. -/
def jdDemo : JsDate :=
  ⟨fun s =>
    if s = "1969-12-31T23:59:59.000Z" then -1000
    else if s = "2025-01-01T00:00:10.000Z" then 1735689610000
    else if s = "2025-01-01T00:00:20.000Z" then 1735689620000
    else 0,
  fun s => s⟩

def logBg10 : LogEntry := ⟨"background", "info", ["a"], "s1", "2025-01-01T00:00:10.000Z"⟩

def logSw20 : LogEntry := ⟨"service_worker", "warn", ["b"], "s1", "2025-01-01T00:00:20.000Z"⟩

def logOpt10 : LogEntry := ⟨"options", "error", ["c"], "s2", "2025-01-01T00:00:10.000Z"⟩

def preEpochLog : LogEntry :=
  ⟨"background", "info", ["x"], "s1", "1969-12-31T23:59:59.000Z"⟩

def pDemo : GetLogsParams := { extensionId := "abcdefgh" }

def pSinceZero : GetLogsParams := { extensionId := "abcdefgh", since := some 0 }

def pSinceTen : GetLogsParams :=
  { extensionId := "abcdefgh", since := some 1735689615000 }

def envNoKey : GetLogsEnv := ⟨none, none, none, none, .ok none⟩

def envStorageFail : GetLogsEnv := ⟨none, none, none, none, .error "chrome is not defined"⟩

def envFallback : GetLogsEnv :=
  ⟨none, some "Navigation timeout of 10000 ms exceeded", none, none, .ok none⟩

def envNewPageFail : GetLogsEnv := ⟨some "Browser closed", none, none, none, .ok none⟩

def envTOk : TestAccessEnv := ⟨none, none, none, none, none, none, .ok ()⟩

def envTNewPageFail : TestAccessEnv :=
  ⟨some "Browser closed", none, none, none, none, none, .ok ()⟩

def sDemo : SessionState := ⟨[0, 1], 1⟩

/-- Model of the WHATWG URL constructor at the concrete inputs used below.
A space is a forbidden host code point, so new URL throws a TypeError on
the input with a space in its host part, modelled as none; the other
inputs parse into their hostname and pathname. -/
def demoURLModel : URLModel :=
  ⟨fun s =>
    if s = "chrome-extension://abcdefgh/background.js" then
      some ⟨"abcdefgh", "/background.js"⟩
    else if s = "chrome-extension://abcdefgh/options.html" then
      some ⟨"abcdefgh", "/options.html"⟩
    else if s = "chrome-extension://ijklmnop/options.html" then
      some ⟨"ijklmnop", "/options.html"⟩
    else none⟩

/-! ## Claim theorems -/

/-- C8: in the spec-modelled dispatcher, handler executions never
interleave and calls are served in FIFO arrival order: the execution
trace of any list of arriving calls carries non-decreasing call indices,
and the steps tagged with call index k are exactly the step list of the
k-th arriving call, contiguous and in order. -/
theorem dispatch_fifo_serial (calls : List ToolCall) (k : Nat) :
    List.Pairwise (fun a b : Nat × String => a.1 ≤ b.1) (dispatchAll calls) ∧
    (dispatchAll calls).filter (fun q => q.1 == k) =
      ((calls[k]?).map (fun c => c.steps.map (fun st => (k, st)))).getD [] := by
  constructor
  · exact pairwise_runFrom calls 0
  · have h := runFrom_filter_eq calls 0 k
    simpa [dispatchAll] using h

/-- C10: isSameExtension is total and symmetric, returns false whenever
either argument does not start with the extension scheme or the first
argument does not parse (the caught extraction failure), and is true on
any parsing chrome-extension url compared with itself. -/
theorem isSameExtension_algebra (M : URLModel) (u1 u2 u : String) (r : URLRec) :
    (isSameExtension M u1 u2 = isSameExtension M u2 u1) ∧
    (jsStartsWith u1 "chrome-extension://" = false → isSameExtension M u1 u2 = false) ∧
    (M.parse u1 = none → isSameExtension M u1 u2 = false) ∧
    (jsStartsWith u "chrome-extension://" = true → M.parse u = some r →
      isSameExtension M u u = true) := by
  refine ⟨?_, ?_, ?_, ?_⟩
  · cases h1 : jsStartsWith u1 "chrome-extension://" <;>
      cases h2 : jsStartsWith u2 "chrome-extension://" <;>
        simp [isSameExtension, extractExtensionId, h1, h2]
    cases hp1 : M.parse u1 <;> cases hp2 : M.parse u2 <;> simp
    exact eq_comm
  · intro h1
    simp [isSameExtension, h1]
  · intro hp1
    cases h1 : jsStartsWith u1 "chrome-extension://" <;>
      cases h2 : jsStartsWith u2 "chrome-extension://" <;>
        simp [isSameExtension, extractExtensionId, h1, h2, hp1]
  · intro hst hp
    simp [isSameExtension, extractExtensionId, hst, hp]

/-- C10 witness: the properties instantiated at the demo URL model and a
parsing chrome-extension url. -/
theorem isSameExtension_algebra_witness :
    isSameExtension demoURLModel "chrome-extension://abcdefgh/options.html"
      "chrome-extension://abcdefgh/options.html" = true :=
  (isSameExtension_algebra demoURLModel "chrome-extension://abcdefgh/options.html"
    "chrome-extension://abcdefgh/options.html"
    "chrome-extension://abcdefgh/options.html"
    ⟨"abcdefgh", "/options.html"⟩).2.2.2 rfl rfl

/-- C9 counterexample: getExtensionContextType does not terminate without
throwing on every input string.  This input starts with
chrome-extension://, but new URL rejects it (a space is a forbidden host
code point), so the source raises a TypeError instead of returning one of
the seven classification values. -/
theorem context_type_throw_counterexample :
    getExtensionContextType demoURLModel "chrome-extension://a b" =
      .error "Invalid URL" := by
  rfl

/-- C9 amended: getExtensionContextType returns web for every url that
does not start with chrome-extension://; on a chrome-extension url the
URL constructor may throw, and whenever the url parses the function
returns one of the seven classification values, returning service_worker
whenever the lowercased pathname contains background. -/
theorem context_type_classification (M : URLModel) (url : String) (u : URLRec) :
    (jsStartsWith url "chrome-extension://" = false →
      getExtensionContextType M url = .ok "web") ∧
    (jsStartsWith url "chrome-extension://" = true → M.parse url = none →
      getExtensionContextType M url = .error "Invalid URL") ∧
    (M.parse url = some u →
      (getExtensionContextType M url = .ok "web" ∨
        getExtensionContextType M url = .ok "service_worker" ∨
        getExtensionContextType M url = .ok "options" ∨
        getExtensionContextType M url = .ok "popup" ∨
        getExtensionContextType M url = .ok "sidebar" ∨
        getExtensionContextType M url = .ok "content_script" ∨
        getExtensionContextType M url = .ok "extension_page")) ∧
    (jsStartsWith url "chrome-extension://" = true → M.parse url = some u →
      jsIncludes (jsToLower u.pathname) "background" = true →
      getExtensionContextType M url = .ok "service_worker") := by
  refine ⟨?_, ?_, ?_, ?_⟩
  · intro h
    simp [getExtensionContextType, h]
  · intro hst hp
    simp [getExtensionContextType, hst, hp]
  · intro hp
    cases hst : jsStartsWith url "chrome-extension://"
    · simp [getExtensionContextType, hst]
    · simp only [getExtensionContextType, hst, Bool.not_true, Bool.false_eq_true,
        if_false, hp]
      split_ifs <;> simp
  · intro hst hp hinc
    simp [getExtensionContextType, hst, hp, hinc]

/-- C9 witness: the amended classification instantiated at the demo URL
model on a parsing url whose pathname mentions background. -/
theorem context_type_classification_witness :
    getExtensionContextType demoURLModel "chrome-extension://abcdefgh/background.js" =
      .ok "service_worker" :=
  (context_type_classification demoURLModel
    "chrome-extension://abcdefgh/background.js"
    ⟨"abcdefgh", "/background.js"⟩).2.2.2 rfl rfl rfl

/-- C2: the context filter of get_extension_logs keeps, for contextType
background, exactly the entries whose ctx is background or service_worker
and no others, and for any other non-all contextType c exactly the
entries whose ctx equals c. -/
theorem ctx_filter_background_alias (logs : List LogEntry) (l : LogEntry) (c : String) :
    (l ∈ filterCtx "background" logs ↔
      l ∈ logs ∧ (l.ctx = "background" ∨ l.ctx = "service_worker")) ∧
    (c ≠ "all" → c ≠ "background" →
      (l ∈ filterCtx c logs ↔ l ∈ logs ∧ l.ctx = c)) := by
  constructor
  · rw [filterCtx, if_pos (by decide)]
    simp [List.mem_filter, ctxKeep]
  · intro hall hbg
    rw [filterCtx, if_pos hall]
    simp [List.mem_filter, ctxKeep, hbg]

/-- C2 witness: the filter instantiated on a concrete store at a non-all,
non-background context type. -/
theorem ctx_filter_background_alias_witness :
    logOpt10 ∈ filterCtx "options" [logBg10, logSw20, logOpt10] ↔
      logOpt10 ∈ [logBg10, logSw20, logOpt10] ∧ logOpt10.ctx = "options" :=
  (ctx_filter_background_alias [logBg10, logSw20, logOpt10] logOpt10 "options").2
    (by decide) (by decide)

set_option maxRecDepth 8000 in
/-- C3 counterexample: with since = 0 the source guard `if (since)` is
false because zero is falsy in JavaScript, so the since filter is skipped
entirely and an entry whose timestamp parses to a negative instant (a
pre-1970 date) is returned even though its parsed timestamp is smaller
than T = 0. -/
theorem since_zero_skips_filter :
    pSinceZero.since = some 0 ∧
    preEpochLog ∈ applyFilters jdDemo.getTime pSinceZero [preEpochLog] ∧
    jdDemo.getTime preEpochLog.t < 0 := by
  refine ⟨rfl, by decide, by decide⟩

/-- C3 amended: whenever the since filter actually applies, that is
since = T with T nonzero (the source guards the filter with JavaScript
truthiness, under which T = 0 disables it), the pipeline returns only
entries whose parsed timestamp is at least T, returns at most maxEntries
entries, and is sorted by parsed timestamp in descending order. -/
theorem filters_since_bound_sorted (gt : String → Int) (p : GetLogsParams)
    (logs : List LogEntry) (T : Int) (hT : p.since = some T) (hT0 : T ≠ 0) :
    (∀ l ∈ applyFilters gt p logs, T ≤ gt l.t) ∧
    (applyFilters gt p logs).length ≤ p.maxEntries ∧
    List.Pairwise (fun a b => gt b.t ≤ gt a.t) (applyFilters gt p logs) := by
  have htruthy : truthyNum p.since = true := by
    rw [hT]
    simpa [truthyNum] using hT0
  refine ⟨?_, ?_, ?_⟩
  · intro l hl
    rw [applyFilters] at hl
    have h1 : l ∈ levelFilter p.logLevel (filterCtx p.contextType
        (sessionFilter p.sessionId (sinceFilter gt p.since logs))) :=
      (mem_sortDesc gt l _).mp (List.mem_of_mem_take hl)
    have h2 : l ∈ filterCtx p.contextType
        (sessionFilter p.sessionId (sinceFilter gt p.since logs)) := by
      rw [levelFilter] at h1
      exact mem_of_iteFilter h1
    have h3 : l ∈ sessionFilter p.sessionId (sinceFilter gt p.since logs) := by
      rw [filterCtx] at h2
      exact mem_of_iteFilter h2
    have h4 : l ∈ sinceFilter gt p.since logs := by
      rw [sessionFilter] at h3
      exact mem_of_iteFilter h3
    rw [sinceFilter, if_pos htruthy] at h4
    have h5 := (List.mem_filter.mp h4).2
    rw [hT] at h5
    exact of_decide_eq_true h5
  · rw [applyFilters, List.length_take]
    exact min_le_left _ _
  · rw [applyFilters]
    exact List.Pairwise.sublist (List.take_sublist _ _) (pairwise_sortDesc gt _)

set_option maxRecDepth 8000 in
/-- C3 witness: the amended bound, truncation and ordering instantiated on
a concrete store with since nonzero. -/
theorem filters_since_bound_sorted_witness :
    (1735689615000 : Int) ≤ jdDemo.getTime logSw20.t ∧
    (applyFilters jdDemo.getTime pSinceTen [logBg10, logSw20, logOpt10]).length ≤
      pSinceTen.maxEntries :=
  ⟨(filters_since_bound_sorted jdDemo.getTime pSinceTen [logBg10, logSw20, logOpt10]
      1735689615000 rfl (by decide)).1 logSw20 (by decide),
    (filters_since_bound_sorted jdDemo.getTime pSinceTen [logBg10, logSw20, logOpt10]
      1735689615000 rfl (by decide)).2.1⟩

/-- When at least one of the two navigation attempts succeeds, the body of
get_extension_logs proceeds to the evaluation stage. -/
theorem getLogsBody_eq_evalPhase (jd : JsDate) (env : GetLogsEnv) (p : GetLogsParams)
    (hnav : env.gotoPrimary = none ∨ env.gotoFallback = none) :
    getLogsBody jd env p = evalPhase jd env p := by
  rcases hnav with h | h
  · simp only [getLogsBody, h]
  · cases hcase : env.gotoPrimary
    · simp only [getLogsBody, hcase]
    · simp only [getLogsBody, hcase, h]

/-- C1: for every run of either handler in which the temporary page opened
successfully, and on every exit path of the body, the handler closes the
temporary page and then, strictly after the close, restores the captured
selection: the recorded trace is exactly close followed by restore, and
the selected page index and page list after the handler equal those
before it. -/
theorem handlers_close_then_restore (jd : JsDate) (envG : GetLogsEnv)
    (envT : TestAccessEnv) (p : GetLogsParams) (eid : String) (s1 s2 : SessionState)
    (hG : envG.newPageResult = none) (hT : envT.newPageResult = none) :
    ((getExtensionLogsHandler jd envG p s1).state.selected = s1.selected ∧
      (getExtensionLogsHandler jd envG p s1).state.pages = s1.pages ∧
      (getExtensionLogsHandler jd envG p s1).trace =
        [SOp.close s1.pages.length, SOp.restore s1.selected]) ∧
    ((testExtensionAccessHandler envT eid s2).state.selected = s2.selected ∧
      (testExtensionAccessHandler envT eid s2).state.pages = s2.pages ∧
      (testExtensionAccessHandler envT eid s2).trace =
        [SOp.close s2.pages.length, SOp.restore s2.selected]) := by
  constructor
  · cases hb : getLogsBody jd envG p <;>
      simp [getExtensionLogsHandler, hG, hb, getSelectedPageIdx, newPage, closePage,
        setSelectedPageIdx, eraseIdx_append_last]
  · simp [testExtensionAccessHandler, hT, getSelectedPageIdx, newPage, closePage,
      setSelectedPageIdx, eraseIdx_append_last]

/-- C1 witness: both handlers instantiated on a concrete session with two
pages and the second selected. -/
theorem handlers_close_then_restore_witness :
    ((getExtensionLogsHandler jdDemo envNoKey pDemo sDemo).state.selected =
        sDemo.selected ∧
      (getExtensionLogsHandler jdDemo envNoKey pDemo sDemo).state.pages = sDemo.pages ∧
      (getExtensionLogsHandler jdDemo envNoKey pDemo sDemo).trace =
        [SOp.close sDemo.pages.length, SOp.restore sDemo.selected]) ∧
    ((testExtensionAccessHandler envTOk "abcdefgh" sDemo).state.selected =
        sDemo.selected ∧
      (testExtensionAccessHandler envTOk "abcdefgh" sDemo).state.pages = sDemo.pages ∧
      (testExtensionAccessHandler envTOk "abcdefgh" sDemo).trace =
        [SOp.close sDemo.pages.length, SOp.restore sDemo.selected]) :=
  handlers_close_then_restore jdDemo envNoKey envTOk pDemo "abcdefgh" sDemo sDemo rfl rfl

/-- C4: in get_extension_logs, when navigation to the options page fails
the handler retries the extension root: if the fallback succeeds the whole
run is indistinguishable from one whose primary navigation succeeded, and
only if the fallback also fails is the failure surfaced, as a single
response line of the returned response rather than a propagated fault. -/
theorem goto_fallback_masks_primary_failure (jd : JsDate) (env : GetLogsEnv)
    (p : GetLogsParams) (s : SessionState) (m : String)
    (hn : env.newPageResult = none) (hp : env.gotoPrimary = some m) :
    (env.gotoFallback = none →
      getExtensionLogsHandler jd env p s =
        getExtensionLogsHandler jd { env with gotoPrimary := none } p s) ∧
    (∀ m2, env.gotoFallback = some m2 →
      (getExtensionLogsHandler jd env p s).lines = [getLogsFailLine m2]) := by
  constructor
  · intro hf
    simp only [getExtensionLogsHandler, getLogsBody, evalPhase, inPageScript,
      hn, hp, hf]
  · intro m2 hf
    simp only [getExtensionLogsHandler, getLogsBody, hn, hp, hf]

/-- C4 witness: a run whose primary navigation times out and whose
fallback succeeds equals the run with a successful primary navigation. -/
theorem goto_fallback_masks_primary_failure_witness :
    getExtensionLogsHandler jdDemo envFallback pDemo sDemo =
      getExtensionLogsHandler jdDemo { envFallback with gotoPrimary := none }
        pDemo sDemo :=
  (goto_fallback_masks_primary_failure jdDemo envFallback pDemo sDemo
    "Navigation timeout of 10000 ms exceeded" rfl rfl).1 rfl

/-- C5: a failure inside the in-page evaluation of get_extension_logs is
returned by the script as the data value with an error field rather than
thrown, and the handler surfaces it as exactly one Error-prefixed response
line and returns; no in-page script failure becomes an unhandled fault. -/
theorem storage_error_single_line (jd : JsDate) (env : GetLogsEnv) (p : GetLogsParams)
    (s : SessionState) (e : String) (hn : env.newPageResult = none)
    (hnav : env.gotoPrimary = none ∨ env.gotoFallback = none)
    (hc : env.evalCrash = none) (hs : env.storageGet = .error e) :
    inPageScript jd.getTime env.storageGet p =
      .errorVal ("Failed to access extension storage: " ++ e) ∧
    (getExtensionLogsHandler jd env p s).lines =
      ["Error: " ++ ("Failed to access extension storage: " ++ e)] := by
  have hip : inPageScript jd.getTime env.storageGet p =
      .errorVal ("Failed to access extension storage: " ++ e) := by
    rw [hs]
    rfl
  refine ⟨hip, ?_⟩
  have hev : evalPhase jd env p =
      .ok ["Error: " ++ ("Failed to access extension storage: " ++ e)] := by
    simp only [evalPhase, hc, hip]
  have hbody := getLogsBody_eq_evalPhase jd env p hnav
  simp only [getExtensionLogsHandler, hn, hbody, hev]

/-- C5 witness: the storage-failure path instantiated on a run whose
storage read throws. -/
theorem storage_error_single_line_witness :
    (getExtensionLogsHandler jdDemo envStorageFail pDemo sDemo).lines =
      ["Error: " ++ ("Failed to access extension storage: " ++
        "chrome is not defined")] :=
  (storage_error_single_line jdDemo envStorageFail pDemo sDemo
    "chrome is not defined" rfl (Or.inl rfl) rfl rfl).2

/-- C6: when the storage key is absent, holds an empty list, or holds only
entries that the filters exclude, get_extension_logs returns the
successful no-logs response listing the three equally plausible causes,
not an error. -/
theorem no_logs_explanation (jd : JsDate) (env : GetLogsEnv) (p : GetLogsParams)
    (s : SessionState) (v : Option (List LogEntry)) (hn : env.newPageResult = none)
    (hnav : env.gotoPrimary = none ∨ env.gotoFallback = none)
    (hc : env.evalCrash = none) (hs : env.storageGet = .ok v)
    (hempty : applyFilters jd.getTime p (v.getD []) = []) :
    getLogsOutcome jd env p = .ok noLogsLines ∧
    (getExtensionLogsHandler jd env p s).lines = noLogsLines := by
  have hip : inPageScript jd.getTime env.storageGet p = .logsVal [] := by
    rw [hs]
    simp only [inPageScript, hempty]
  have hev : evalPhase jd env p = .ok noLogsLines := by
    simp only [evalPhase, hc, hip, List.length_nil, if_pos]
  have hbody := getLogsBody_eq_evalPhase jd env p hnav
  constructor
  · simp only [getLogsOutcome, hn, hbody, hev]
  · simp only [getExtensionLogsHandler, hn, hbody, hev]

/-- C6 witness: the no-logs path instantiated on a run whose storage has
no value under the log key. -/
theorem no_logs_explanation_witness :
    (getExtensionLogsHandler jdDemo envNoKey pDemo sDemo).lines = noLogsLines :=
  (no_logs_explanation jdDemo envNoKey pDemo sDemo none rfl (Or.inl rfl)
    rfl rfl rfl).2

/-- C7: any exception escaping the body of either handler is caught at the
outermost handler boundary and converted into a single appended error
line, and a successful body yields its lines unchanged; either way the
caller receives a well-formed response. -/
theorem handler_catch_boundary (jd : JsDate) (envG : GetLogsEnv) (envT : TestAccessEnv)
    (p : GetLogsParams) (eid : String) (s1 s2 : SessionState) (m m2 : String) :
    (∀ ls, getLogsOutcome jd envG p = .ok ls →
      (getExtensionLogsHandler jd envG p s1).lines = ls) ∧
    (getLogsOutcome jd envG p = .error m →
      (getExtensionLogsHandler jd envG p s1).lines = [getLogsFailLine m]) ∧
    (testOutcome envT = .error m2 →
      (testExtensionAccessHandler envT eid s2).lines =
        ["Testing extension: " ++ eid, "", testFailLine m2]) := by
  refine ⟨?_, ?_, ?_⟩
  · intro ls hok
    cases hn : envG.newPageResult with
    | some m0 => rw [getLogsOutcome, hn] at hok; cases hok
    | none =>
      rw [getLogsOutcome, hn] at hok
      dsimp only at hok
      simp only [getExtensionLogsHandler, hn, hok]
  · intro herr
    cases hn : envG.newPageResult with
    | some m0 =>
      rw [getLogsOutcome, hn] at herr
      cases herr
      simp only [getExtensionLogsHandler, hn]
    | none =>
      rw [getLogsOutcome, hn] at herr
      dsimp only at herr
      simp only [getExtensionLogsHandler, hn, herr]
  · intro herr
    cases hn : envT.newPageResult with
    | some m0 =>
      rw [testOutcome, hn] at herr
      cases herr
      simp [testExtensionAccessHandler, hn]
    | none => rw [testOutcome, hn] at herr; cases herr

/-- C7 witness: the conversion instantiated on runs whose newPage call
throws in each handler. -/
theorem handler_catch_boundary_witness :
    (getExtensionLogsHandler jdDemo envNewPageFail pDemo sDemo).lines =
      [getLogsFailLine "Browser closed"] ∧
    (testExtensionAccessHandler envTNewPageFail "abcdefgh" sDemo).lines =
      ["Testing extension: " ++ "abcdefgh", "", testFailLine "Browser closed"] :=
  ⟨(handler_catch_boundary jdDemo envNewPageFail envTNewPageFail pDemo "abcdefgh"
      sDemo sDemo "Browser closed" "Browser closed").2.1 rfl,
    (handler_catch_boundary jdDemo envNewPageFail envTNewPageFail pDemo "abcdefgh"
      sDemo sDemo "Browser closed" "Browser closed").2.2 rfl⟩
